import Mathlib

/-!
Verification of the Multiagents task-graph execution engine.

This file shallowly embeds the core of the repository:
- `processing/result_processor.py` (artifact extraction),
- `action/file_manager.py` (sandboxed writes),
- `admin/manager.py` (task status tracking),
- `cognitive/planner.py` (plan construction),
- `orchestrator.py` and `core/orchestrator_engine.py` (subtask dispatch),
- `action/environment_manager.py` with `OrchestratorEngine._verify_and_heal`
  (the self-healing loop).

Strings are modelled as Lean `String`/`List Char`; the regular expressions of
the source are hand-compiled to scanners that reproduce the Python `re`
semantics on the concrete patterns used (all of them are backtracking-free:
each greedy or lazy subpattern is delimited by characters disjoint from its
own class, so leftmost-match scanning is exact).  External collaborators
(the LLM backend, the security validator, install-probe commands, the web
scraper) are passed in as explicit oracles, following the contracts in the
source.
-/

/-- Python `\w` on the ASCII fragment used by the repository: letters,
digits and underscore. -/
def isWordChar (c : Char) : Bool :=
  c.isAlphanum || c = '_'

/-- Python `\s`: space, tab, newline, carriage return, vertical tab, form
feed.  Also the character set stripped by `str.strip()`. -/
def isPySpace (c : Char) : Bool :=
  c = ' ' || c = '\t' || c = '\n' || c = '\r' || c = Char.ofNat 11 || c = Char.ofNat 12

/-- The character class `[\w/.-]` of the labeled-file marker regex in
`ResultProcessor._extract_labeled_files`. -/
def isPathChar (c : Char) : Bool :=
  isWordChar c || c = '/' || c = '.' || c = '-'

/-- `dropPref pat s` returns the remainder of `s` after the literal prefix
`pat`, or `none` when `s` does not start with `pat`. -/
def dropPref : List Char → List Char → Option (List Char)
  | [], s => some s
  | _ :: _, [] => none
  | p :: ps, c :: cs => if c = p then dropPref ps cs else none

/-- Lazy scan used for the non-greedy `(.*?)` subpatterns (with `re.DOTALL`):
`scanTo pat s` splits `s` at the first occurrence of the literal `pat`,
returning the text before it and the remainder after it. -/
def scanTo (pat : List Char) : List Char → Option (List Char × List Char)
  | [] =>
    match dropPref pat [] with
    | some r => some ([], r)
    | none => none
  | c :: cs =>
    match dropPref pat (c :: cs) with
    | some rest => some ([], rest)
    | none =>
      match scanTo pat cs with
      | some (pre, rest) => some (c :: pre, rest)
      | none => none

/-- Python `pat in s` (substring test). -/
def containsSub (s pat : String) : Bool :=
  (scanTo pat.data s.data).isSome

/-- Python `str.strip()`. -/
def pyStrip (s : String) : String :=
  ⟨((s.data.dropWhile isPySpace).reverse.dropWhile isPySpace).reverse⟩

/-- The marker line literal of the labeled-file protocol. -/
def fileMarker : String := "### FILE: "

/-- Three backticks, the code-fence delimiter. -/
def fenceDelim : String := "```"

/-- One match attempt of the labeled-file regex
`### FILE: ([\w/.-]+)\s+<fence>\w*\n(.*?)<fence>` anchored at the head of
`s`; on success returns the raw path capture, the raw body capture and the
text after the match (where `re.findall` resumes). -/
def matchLabeledAt (s : List Char) : Option (List Char × List Char × List Char) :=
  match dropPref fileMarker.data s with
  | none => none
  | some s1 =>
    let path := s1.takeWhile isPathChar
    if path.isEmpty then none else
    let s2 := s1.dropWhile isPathChar
    if (s2.takeWhile isPySpace).isEmpty then none else
    let s3 := s2.dropWhile isPySpace
    match dropPref fenceDelim.data s3 with
    | none => none
    | some s4 =>
      match s4.dropWhile isWordChar with
      | '\n' :: s6 =>
        match scanTo fenceDelim.data s6 with
        | none => none
        | some (body, rest) => some (path, body, rest)
      | _ => none

/-- `re.findall` driver: try a match at every position, left to right,
resuming after each match.  `fuel` bounds the recursion; it is instantiated
with the length of the input, which suffices because every step consumes at
least one character. -/
def extractLabeledGo : Nat → List Char → List (List Char × List Char)
  | 0, _ => []
  | _ + 1, [] => []
  | fuel + 1, c :: cs =>
    match matchLabeledAt (c :: cs) with
    | some (path, body, rest) => (path, body) :: extractLabeledGo fuel rest
    | none => extractLabeledGo fuel cs

/-- `ResultProcessor._extract_labeled_files`: every match of the labeled-file
regex yields one `(path, content)` pair, both stripped. -/
def extractLabeledFiles (content : String) : List (String × String) :=
  (extractLabeledGo content.data.length content.data).map
    (fun pc => (pyStrip ⟨pc.1⟩, pyStrip ⟨pc.2⟩))

example : extractLabeledFiles "### FILE: a/b.txt\n```txt\nhello\n```" =
    [("a/b.txt", "hello")] := by decide

example : extractLabeledFiles "no files here" = [] := by decide

/-- One match attempt of the fallback fenced-block regex
`<fence>(\w+)\n(.*?)<fence>` of `create_complete_implementation`, anchored at
the head of `s`; returns the language tag, the block body and the remainder. -/
def matchBlockAt (s : List Char) : Option (List Char × List Char × List Char) :=
  match dropPref fenceDelim.data s with
  | none => none
  | some s1 =>
    let lang := s1.takeWhile isWordChar
    if lang.isEmpty then none else
    match s1.dropWhile isWordChar with
    | '\n' :: s3 =>
      match scanTo fenceDelim.data s3 with
      | none => none
      | some (body, rest) => some (lang, body, rest)
    | _ => none

/-- `re.findall` driver for the fenced-block regex. -/
def findBlocksGo : Nat → List Char → List (List Char × List Char)
  | 0, _ => []
  | _ + 1, [] => []
  | fuel + 1, c :: cs =>
    match matchBlockAt (c :: cs) with
    | some (lang, body, rest) => (lang, body) :: findBlocksGo fuel rest
    | none => findBlocksGo fuel cs

/-- All `(language, body)` fenced code blocks of a result text, in order. -/
def findCodeBlocks (content : String) : List (String × String) :=
  (findBlocksGo content.data.length content.data).map (fun lb => (⟨lb.1⟩, ⟨lb.2⟩))

/-- One match attempt of the inline-tag regexes `<style.*?>(.*?)</style>` and
`<script.*?>(.*?)</script>` of `_process_html`, anchored at the head of `s`:
the literal opening, lazily anything up to the first `>`, then the body
lazily up to the first occurrence of the closing literal. -/
def matchDelimAt (openTag closeTag : List Char) (s : List Char) :
    Option (List Char × List Char) :=
  match dropPref openTag s with
  | none => none
  | some s1 =>
    match scanTo ['>'] s1 with
    | none => none
    | some (_, s2) =>
      match scanTo closeTag s2 with
      | none => none
      | some (body, rest) => some (body, rest)

/-- `re.findall` driver for the inline-tag regexes: collected bodies. -/
def findDelimGo (openTag closeTag : List Char) : Nat → List Char → List (List Char)
  | 0, _ => []
  | _ + 1, [] => []
  | fuel + 1, c :: cs =>
    match matchDelimAt openTag closeTag (c :: cs) with
    | some (body, rest) => body :: findDelimGo openTag closeTag fuel rest
    | none => findDelimGo openTag closeTag fuel cs

/-- `re.sub(pattern, "", ...)` driver for the same inline-tag regexes: the
input with every match deleted. -/
def removeDelimGo (openTag closeTag : List Char) : Nat → List Char → List Char
  | 0, s => s
  | _ + 1, [] => []
  | fuel + 1, c :: cs =>
    match matchDelimAt openTag closeTag (c :: cs) with
    | some (_, rest) => removeDelimGo openTag closeTag fuel rest
    | none => c :: removeDelimGo openTag closeTag fuel cs

/-- All inline `<style ...>...</style>` bodies of an HTML fragment. -/
def findStyleBlocks (html : String) : List String :=
  (findDelimGo "<style".data "</style>".data html.data.length html.data).map
    (fun b => ⟨b⟩)

/-- All inline `<script ...>...</script>` bodies of an HTML fragment. -/
def findScriptBlocks (html : String) : List String :=
  (findDelimGo "<script".data "</script>".data html.data.length html.data).map
    (fun b => ⟨b⟩)

/-- The HTML fragment with every inline style block deleted. -/
def removeStyleBlocks (html : String) : String :=
  ⟨removeDelimGo "<style".data "</style>".data html.data.length html.data⟩

/-- The HTML fragment with every inline script block deleted. -/
def removeScriptBlocks (html : String) : String :=
  ⟨removeDelimGo "<script".data "</script>".data html.data.length html.data⟩

/-- Python `str.replace` (all occurrences, left to right, replacements not
rescanned). -/
def replaceAllGo (pat rep : List Char) : Nat → List Char → List Char
  | 0, s => s
  | _ + 1, [] => []
  | fuel + 1, c :: cs =>
    match dropPref pat (c :: cs) with
    | some rest => rep ++ replaceAllGo pat rep fuel rest
    | none => c :: replaceAllGo pat rep fuel cs

/-- Python `str.replace` on strings. -/
def pyReplace (s pat rep : String) : String :=
  ⟨replaceAllGo pat.data rep.data s.data.length s.data⟩

/-- The stylesheet reference `_inject_links` splices in before `</head>`. -/
def cssLinkTag : String := "    <link rel=\"stylesheet\" href=\"style.css\">\n</head>"

/-- The script reference `_inject_links` splices in before `</body>`. -/
def jsScriptTag : String := "    <script src=\"script.js\"></script>\n</body>"

/-- `ResultProcessor._inject_links`. -/
def injectLinks (html : String) : String :=
  let h1 := if containsSub html "</head>" then pyReplace html "</head>" cssLinkTag else html
  if containsSub h1 "</body>" then pyReplace h1 "</body>" jsScriptTag else h1

example : findCodeBlocks "x ```css\na\n``` y" = [("css", "a\n")] := by decide
example : findStyleBlocks "<style>a</style><p><style media=x>b</style>" = ["a", "b"] := by decide
example : removeStyleBlocks "<style>a</style><p>q</p>" = "<p>q</p>" := by decide
example : injectLinks "<head></head><body></body>" =
    "<head>    <link rel=\"stylesheet\" href=\"style.css\">\n</head><body>    <script src=\"script.js\"></script>\n</body>" := by decide

/-- `pathlib` resolution of already-split segments against an accumulator:
empty and `.` segments vanish, `..` pops (and stays put at the root, as
Python resolves `/..` to `/`), anything else is pushed. -/
def resolveSegs : List String → List String → List String
  | acc, [] => acc
  | acc, seg :: rest =>
    if seg = "" || seg = "." then resolveSegs acc rest
    else if seg = ".." then resolveSegs acc.dropLast rest
    else resolveSegs (acc ++ [seg]) rest

/-- Split on `/`, keeping empty segments (Python `str.split("/")`). -/
def splitSlashGo (acc : List Char) : List Char → List String
  | [] => [⟨acc.reverse⟩]
  | c :: cs =>
    if c = '/' then ⟨acc.reverse⟩ :: splitSlashGo [] cs
    else splitSlashGo (c :: acc) cs

/-- Split a path string on `/`. -/
def splitSlash (s : String) : List String := splitSlashGo [] s.data

/-- `(base_directory / filepath).resolve()` where `base` is the resolved base
directory as a segment list.  A `filepath` starting with `/` is absolute and
discards the base, as `pathlib` joining does. -/
def resolvePath (base : List String) (filepath : String) : List String :=
  match filepath.data with
  | '/' :: _ => resolveSegs [] (splitSlash filepath)
  | _ => resolveSegs base (splitSlash filepath)

/-- One `file_history` record of `FileManager._log_operation` (the wall-clock
timestamp is not modelled). -/
structure FileHistEntry where
  operation : String
  filepath : String
  success : Bool
deriving DecidableEq, Repr

/-- `FileManager` state: the resolved base directory as segments, the files
below it (resolved absolute segment path to content), and the operation
history. -/
structure FileManagerState where
  base : List String
  files : List (List String × String) := []
  history : List FileHistEntry := []
deriving DecidableEq, Repr

/-- Store/overwrite one file, dict-style: an existing path is updated in
place, a new path appended. -/
def filesSet : List (List String × String) → List String → String →
    List (List String × String)
  | [], p, c => [(p, c)]
  | (q, d) :: rest, p, c =>
    if q = p then (p, c) :: rest else (q, d) :: filesSet rest p c

/-- The result dictionary of `FileManager.write_file`: on success it carries
`str(full_path)` and the content length, on failure the original filepath and
`str(e)` (the timestamp is not modelled). -/
structure WriteResult where
  success : Bool
  filepath : String
  size : Option Nat := none
  error : Option String := none
deriving DecidableEq, Repr

/-- `FileManager._get_safe_path`: resolve the path against the base directory
and require the resolved base to be a prefix of it (that is what
`Path.relative_to` checks); otherwise `ValueError` with the message below. -/
def getSafePath (fm : FileManagerState) (filepath : String) :
    Except String (List String) :=
  let resolved := resolvePath fm.base filepath
  if fm.base.isPrefixOf resolved then Except.ok resolved
  else Except.error ("Path " ++ filepath ++ " is outside base directory")

/-- `FileManager.write_file`: the `ValueError` from `_get_safe_path` is the
only failure the model can produce; both outcomes are logged. -/
def writeFile (fm : FileManagerState) (filepath content : String) :
    WriteResult × FileManagerState :=
  match getSafePath fm filepath with
  | Except.ok resolved =>
    ({ success := true, filepath := String.intercalate "/" resolved,
       size := some content.length },
     { fm with files := filesSet fm.files resolved content,
               history := fm.history ++ [⟨"write", filepath, true⟩] })
  | Except.error e =>
    ({ success := false, filepath := filepath, error := some e },
     { fm with history := fm.history ++ [⟨"write", filepath, false⟩] })

/-- Write a list of `(path, content)` artifacts in order, collecting the
write results (the labeled-files loop of `create_complete_implementation`). -/
def writeMany (fm : FileManagerState) : List (String × String) →
    List WriteResult × FileManagerState
  | [] => ([], fm)
  | (p, c) :: rest =>
    let rfm := writeFile fm p c
    let tail := writeMany rfm.2 rest
    (rfm.1 :: tail.1, tail.2)

/-- Python `str.lower()` on the ASCII fragment in use. -/
def pyLower (s : String) : String := ⟨s.data.map Char.toLower⟩

/-- `ResultProcessor._process_html`: pull the inline style and script blocks
out, strip them from the markup, inject the external references, and write
`index.html`, then `style.css` and `script.js` when their concatenated
contents are non-empty. -/
def processHtml (fm : FileManagerState) (html : String) :
    List WriteResult × FileManagerState :=
  let cssContent := String.intercalate "\n\n" ((findStyleBlocks html).map pyStrip)
  let jsContent := String.intercalate "\n\n" ((findScriptBlocks html).map pyStrip)
  let stripped := removeScriptBlocks (removeStyleBlocks html)
  let injected := injectLinks stripped
  let w1 := writeFile fm "index.html" (pyStrip injected)
  let step2 :=
    if cssContent ≠ "" then
      let w2 := writeFile w1.2 "style.css" cssContent
      ([w1.1, w2.1], w2.2)
    else ([w1.1], w1.2)
  if jsContent ≠ "" then
    let w3 := writeFile step2.2 "script.js" jsContent
    (step2.1 ++ [w3.1], w3.2)
  else step2

/-- Processing of one subtask result inside the loop of
`ResultProcessor.create_complete_implementation`: labeled files are
authoritative; only when none are found does the fenced-block fallback run
(html split, fixed `style.css` / `script.js` names, other tags ignored). -/
def processContent (fm : FileManagerState) (content : String) :
    List WriteResult × FileManagerState :=
  let labeled := extractLabeledFiles content
  if ¬ labeled.isEmpty then writeMany fm labeled
  else
    (findCodeBlocks content).foldl
      (fun acc lb =>
        let lang := pyLower lb.1
        if lang = "html" then
          let r := processHtml acc.2 lb.2
          (acc.1 ++ r.1, r.2)
        else if lang = "css" then
          let w := writeFile acc.2 "style.css" (pyStrip lb.2)
          (acc.1 ++ [w.1], w.2)
        else if lang = "js" ∨ lang = "javascript" then
          let w := writeFile acc.2 "script.js" (pyStrip lb.2)
          (acc.1 ++ [w.1], w.2)
        else acc)
      ([], fm)

/-- `ResultProcessor.create_complete_implementation`: fold `processContent`
over the subtask results (all result values are strings here, so the
`isinstance` guard of the source is vacuous). -/
def createCompleteImplementation (fm : FileManagerState)
    (results : List (String × String)) : List WriteResult × FileManagerState :=
  results.foldl
    (fun acc idc =>
      let r := processContent acc.2 idc.2
      (acc.1 ++ r.1, r.2))
    ([], fm)

example : resolvePath ["ws"] "../../etc/passwd" = ["etc", "passwd"] := by decide
example : resolvePath ["ws"] "a/../b.txt" = ["ws", "b.txt"] := by decide
example :
    (writeFile ⟨["ws"], [], []⟩ "a/b.txt" "x").2.files = [(["ws", "a", "b.txt"], "x")] := by
  decide
example :
    (writeFile ⟨["ws"], [], []⟩ "../oops" "x").1.success = false := by decide

/-- `admin/manager.py` `TaskStatus`. -/
inductive TaskStatus where
  | pending
  | in_progress
  | completed
  | failed
  | blocked
deriving DecidableEq, Repr

/-- `admin/manager.py` `Task` (timestamps and free-form metadata are not
modelled; `result` holds the string result stored by `complete_task`). -/
structure MTask where
  task_id : String
  description : String
  status : TaskStatus
  assigned_agent : Option String := none
  result : Option String := none
  dependencies : List String := []
deriving DecidableEq, Repr

/-- Python-dict lookup on an association list. -/
def dictGet : List (String × MTask) → String → Option MTask
  | [], _ => none
  | (k, v) :: rest, key => if k = key then some v else dictGet rest key

/-- Python-dict store on an association list: existing keys are updated in
place, new keys appended. -/
def dictSet : List (String × MTask) → String → MTask → List (String × MTask)
  | [], key, v => [(key, v)]
  | (k, w) :: rest, key, v =>
    if k = key then (key, v) :: rest else (k, w) :: dictSet rest key v

/-- `AgentManager` state (messages are not modelled; `task_counter` replaces
the counter-plus-wall-clock task id scheme, keeping ids unique). -/
structure AgentManagerState where
  tasks : List (String × MTask) := []
  task_counter : Nat := 0
  agent_outputs : List (String × List String) := []
deriving DecidableEq, Repr

/-- `AgentManager._dependencies_met`: every dependency id must be present and
COMPLETED. -/
def dependenciesMet (m : AgentManagerState) (t : MTask) : Bool :=
  t.dependencies.all
    (fun d =>
      match dictGet m.tasks d with
      | some dt => dt.status = TaskStatus.completed
      | none => false)

/-- `AgentManager.create_task` (id generated from the counter; the source
additionally appends a wall-clock timestamp). -/
def createTask (m : AgentManagerState) (description : String)
    (dependencies : List String) : MTask × AgentManagerState :=
  let counter := m.task_counter + 1
  let id := "task_" ++ toString counter
  let t : MTask :=
    { task_id := id, description := description, status := TaskStatus.pending,
      dependencies := dependencies }
  (t, { m with task_counter := counter, tasks := dictSet m.tasks id t })

/-- `AgentManager.assign_task`: unknown id refused; unmet dependencies set
BLOCKED and refuse; otherwise the task is assigned and marked IN_PROGRESS. -/
def assignTask (m : AgentManagerState) (taskId agentId : String) :
    Bool × AgentManagerState :=
  match dictGet m.tasks taskId with
  | none => (false, m)
  | some t =>
    if ¬ dependenciesMet m t then
      (false, { m with tasks := dictSet m.tasks taskId ({ t with status := TaskStatus.blocked }) })
    else
      (true,
       { m with tasks := dictSet m.tasks taskId
                    ({ t with assigned_agent := some agentId,
                              status := TaskStatus.in_progress }) })

/-- Append one output to an agent's output list, dict-style. -/
def outputsAdd : List (String × List String) → String → String →
    List (String × List String)
  | [], agent, out => [(agent, [out])]
  | (a, outs) :: rest, agent, out =>
    if a = agent then (a, outs ++ [out]) :: rest
    else (a, outs) :: outputsAdd rest agent out

/-- `AgentManager.complete_task`: unknown id refused, everything else is
marked COMPLETED with the result stored, whatever the previous status. -/
def completeTask (m : AgentManagerState) (taskId result : String) :
    Bool × AgentManagerState :=
  match dictGet m.tasks taskId with
  | none => (false, m)
  | some t =>
    let t2 := { t with status := TaskStatus.completed, result := some result }
    let m2 := { m with tasks := dictSet m.tasks taskId t2 }
    match t.assigned_agent with
    | some a => (true, { m2 with agent_outputs := outputsAdd m2.agent_outputs a result })
    | none => (true, m2)

/-- `cognitive/planner.py` `SubTask`. -/
structure SubTask where
  task_id : String
  description : String
  task_type : String
  dependencies : List String
  estimated_complexity : String
  required_output : String
deriving DecidableEq, Repr

/-- `cognitive/planner.py` `ExecutionPlan`. -/
structure ExecutionPlan where
  plan_id : String
  original_task : String
  subtasks : List SubTask
  execution_order : List String
  success_criteria : List String
deriving DecidableEq, Repr

/-- One subtask entry of the decoded planner-response JSON; optional fields
model the `dict.get` defaults of `_parse_plan_response` (`id` and
`description` are accessed unconditionally, so they are required). -/
structure SubTaskData where
  id : String
  description : String
  task_type : Option String := none
  dependencies : Option (List String) := none
  complexity : Option String := none
  required_output : Option String := none
deriving DecidableEq, Repr

/-- The decoded planner-response JSON object. -/
structure PlanData where
  subtasks : List SubTaskData := []
  execution_order : Option (List String) := none
  success_criteria : Option (List String) := none
deriving DecidableEq, Repr

/-- `PlannerAgent._create_fallback_plan`. -/
def fallbackPlan (planId originalTask : String) : ExecutionPlan :=
  { plan_id := planId, original_task := originalTask,
    subtasks := [{ task_id := "subtask_1", description := originalTask,
                   task_type := "general", dependencies := [],
                   estimated_complexity := "medium",
                   required_output := "Task completion" }],
    execution_order := ["subtask_1"],
    success_criteria := ["Task completed successfully"] }

/-- Conversion of one decoded subtask entry, with the defaults of
`_parse_plan_response`. -/
def subTaskOfData (st : SubTaskData) : SubTask :=
  { task_id := st.id, description := st.description,
    task_type := st.task_type.getD "general",
    dependencies := st.dependencies.getD [],
    estimated_complexity := st.complexity.getD "medium",
    required_output := st.required_output.getD "Task completion" }

/-- `PlannerAgent._parse_plan_response`, with the JSON front end abstracted:
`decoded` is the result of `json.loads` on the brace-delimited slice of the
response (or of `_parse_text_plan`); `none` stands for the exception path,
which falls back to `_create_fallback_plan`.  No structural validation of any
kind — in particular no cycle, duplicate-id or dangling-dependency check —
is performed on the decoded data. -/
def parsePlanResponse (planId originalTask : String) (decoded : Option PlanData) :
    ExecutionPlan :=
  match decoded with
  | none => fallbackPlan planId originalTask
  | some pd =>
    let subtasks := pd.subtasks.map subTaskOfData
    { plan_id := planId, original_task := originalTask, subtasks := subtasks,
      execution_order := pd.execution_order.getD (subtasks.map (fun st => st.task_id)),
      success_criteria := pd.success_criteria.getD ["All subtasks completed successfully"] }

/-- Dependency ids of a subtask id within a plan (empty for unknown ids). -/
def depsOf (sts : List SubTask) (id : String) : List String :=
  match sts.find? (fun st => st.task_id = id) with
  | some st => st.dependencies
  | none => []

/-- One round of forward closure of the dependency relation. -/
def expandOnce (sts : List SubTask) (seen : List String) : List String :=
  seen.foldl
    (fun acc i =>
      (depsOf sts i).foldl (fun a d => if d ∈ a then a else a ++ [d]) acc)
    seen

/-- Iterated closure (enough rounds to stabilise on the inputs we use). -/
def iterExpand (sts : List SubTask) : Nat → List String → List String
  | 0, ids => ids
  | n + 1, ids => iterExpand sts n (expandOnce sts ids)

/-- The spec-side notion used by the claim: the dependency relation among the
subtask ids contains a cycle, i.e. some subtask can reach itself through one
or more dependency edges. -/
def hasCycleBool (plan : ExecutionPlan) : Bool :=
  plan.subtasks.any
    (fun st => st.task_id ∈ iterExpand plan.subtasks (plan.subtasks.length + 1) st.dependencies)

example :
    hasCycleBool (parsePlanResponse "p" "t"
      (some { subtasks := [{ id := "a", description := "da", dependencies := some ["b"] },
                           { id := "b", description := "db", dependencies := some ["a"] }] })) =
      true := by decide
example : hasCycleBool (fallbackPlan "p" "t") = false := by decide

/-- One subtask of `OrchestratorEngine._execute_plan`.  `sec` is the security
collaborator (`validate_command` at MEDIUM level), `backend` the
text-generation backend applied to the subtask description (the system
prompt is a fixed constant and is folded into the oracle), `scrape` the web
scraper (URL extraction and truncation folded in).  A transport failure from
the backend is an uncaught exception, modelled as `Except.error`; the
security-blocked branch stores a result without calling the backend. -/
def engineStep (sec : String → Bool × String)
    (backend : String → Except String String) (scrape : String → String)
    (st : SubTask) : Except String String :=
  if st.task_type = "web_scrape" then Except.ok (scrape st.description)
  else
    let v := sec st.description
    if ¬ v.1 then Except.ok ("Blocked: " ++ v.2)
    else backend st.description

/-- `OrchestratorEngine._execute_plan`: every subtask of the plan is visited
in declaration order — dependency and status information is never consulted —
and an uncaught backend exception aborts the whole loop, discarding the
results collected so far. -/
def engineExecutePlan (sec : String → Bool × String)
    (backend : String → Except String String) (scrape : String → String) :
    List SubTask → Except String (List (String × String))
  | [] => Except.ok []
  | st :: rest =>
    match engineStep sec backend scrape st with
    | Except.error e => Except.error e
    | Except.ok r =>
      match engineExecutePlan sec backend scrape rest with
      | Except.error e => Except.error e
      | Except.ok rs => Except.ok ((st.task_id, r) :: rs)

/-- The per-subtask result of `engineStep` when the backend never raises. -/
def engineStepValue (sec : String → Bool × String) (f : String → String)
    (scrape : String → String) (st : SubTask) : String :=
  if st.task_type = "web_scrape" then scrape st.description
  else
    let v := sec st.description
    if ¬ v.1 then "Blocked: " ++ v.2
    else f st.description

/-- `MultiAgentOrchestrator._build_enhanced_prompt`. -/
def buildEnhancedPrompt (st : SubTask) : String :=
  st.description ++ "\n\n" ++
  "Required output: " ++ st.required_output ++ "\n\n" ++
  "IMPORTANT: Provide complete, working code with:\n" ++
  "1. Proper imports at the top\n" ++
  "2. Clear docstrings and comments\n" ++
  "3. Error handling where appropriate\n" ++
  "4. Type hints for function parameters\n" ++
  "5. Example usage if applicable\n\n" ++
  "Format your code in markdown code blocks with language specification (```python)"

/-- `MultiAgentOrchestrator._execute_subtask`: the whole body runs inside a
`try` block, so a transport failure from the backend is caught and returned
as the string `"Error executing subtask: <e>"`; a security rejection is
returned as a `"Task blocked by security: <reason>"` string without calling
the backend. -/
def executeSubtask (sec : String → Bool × String)
    (backend : String → Except String String) (st : SubTask) : String :=
  let v := sec st.description
  if ¬ v.1 then "Task blocked by security: " ++ v.2
  else
    match backend (buildEnhancedPrompt st) with
    | Except.ok content => content
    | Except.error e => "Error executing subtask: " ++ e

/-- `MultiAgentOrchestrator._execute_plan`: for each subtask in declaration
order, create a manager task, assign it (the returned flag is ignored by the
source), execute, and `complete_task` the result.  `agentOf` is the spawner
oracle giving the executor agent id for a description. -/
def executePlanOrch (sec : String → Bool × String)
    (backend : String → Except String String) (agentOf : String → String)
    (start : List (String × String) × AgentManagerState) :
    List SubTask → List (String × String) × AgentManagerState
  | [] => start
  | st :: rest =>
    let c := createTask start.2 st.description st.dependencies
    let m2 := (assignTask c.2 c.1.task_id (agentOf st.description)).2
    let result := executeSubtask sec backend st
    let m3 := (completeTask m2 c.1.task_id result).2
    executePlanOrch sec backend agentOf (start.1 ++ [(st.task_id, result)], m3) rest

/-- One failure record of `EnvironmentManager.install_dependencies`. -/
structure EnvFailure where
  file : String
  error : String
deriving DecidableEq, Repr

/-- The last `/`-separated segment of a path string. -/
def lastSegment (p : String) : String :=
  (splitSlash p).getLastD ""

/-- `EnvironmentManager.install_dependencies` over an explicit file tree
(path string with content); `runNpm` and `runPip` are the install-probe
oracles, a function of the manifest path and its current content, returning
success plus combined output.  Manifests are recognised by file name, with
the vendor/virtual-env substring exclusions of the source. -/
def installDependencies (tree : List (String × String))
    (runNpm runPip : String → String → Bool × String) : List EnvFailure :=
  let node := tree.filter
    (fun f => lastSegment f.1 = "package.json" && ¬ containsSub f.1 "node_modules")
  let nodeFails := node.filterMap
    (fun f =>
      let r := runNpm f.1 f.2
      if r.1 then none else some ⟨f.1, r.2⟩)
  let py := tree.filter
    (fun f => lastSegment f.1 = "requirements.txt" && ¬ containsSub f.1 "venv" &&
      ¬ containsSub f.1 ".env")
  let pyFails := py.filterMap
    (fun f =>
      let r := runPip f.1 f.2
      if r.1 then none else some ⟨f.1, r.2⟩)
  nodeFails ++ pyFails

/-- The retry loop of `OrchestratorEngine._verify_and_heal` (lines 91-129),
over an abstract healing state `S`: `install` probes the manifests,
`patchAll` applies the backend fixes for one round of failures (in the
source: one `LLMRouter.chat` call plus `create_complete_implementation` per
failure).  `k` is the 0-based attempt index, `budget` the remaining
iterations of `range(max_retries)`.  History entries are the exact f-strings
of the source. -/
def verifyAndHealLoop {S : Type} (install : S → List EnvFailure)
    (patchAll : S → List EnvFailure → S) : Nat → Nat → S → List String
  | 0, _, _ => []
  | budget + 1, k, s =>
    let fails := install s
    if fails.isEmpty then ["Attempt " ++ toString (k + 1) ++ ": Success"]
    else
      ("Attempt " ++ toString (k + 1) ++ ": Failed with " ++
        toString fails.length ++ " errors. Retrying...") ::
      verifyAndHealLoop install patchAll budget (k + 1) (patchAll s fails)

/-- `OrchestratorEngine._verify_and_heal` as invoked (lines 87-129): the very
first statement constructs `EnvironmentManager(file_manager.base)`, but
`FileManager` defines no attribute `base` (its field is `base_directory`), so
every invocation raises `AttributeError` before any probe or loop iteration
runs; the loop above is unreachable from this entry point. -/
def verifyAndHealEngine (_fm : FileManagerState) (_maxRetries : Nat) :
    Except String (List String) :=
  Except.error "AttributeError: FileManager object has no attribute base"

example :
    verifyAndHealLoop
      (fun t => installDependencies t (fun _ _ => (true, "")) (fun _ c => (c = "good", "err")))
      (fun t _ => t.map (fun f => (f.1, "good")))
      3 0 [("requirements.txt", "bad")] =
    ["Attempt 1: Failed with 1 errors. Retrying...", "Attempt 2: Success"] := by decide

/-!  Helper lemmas about the dict model. -/

theorem dictGet_dictSet_self (l : List (String × MTask)) (k : String) (v : MTask) :
    dictGet (dictSet l k v) k = some v := by
  induction l with
  | nil => simp [dictSet, dictGet]
  | cons h tl ih =>
    by_cases hk : h.1 = k
    · simp [dictSet, hk, dictGet]
    · simp only [dictSet, hk]
      simp only [if_false, dictGet, hk, ite_false]
      exact ih

theorem dictSet_mem (l : List (String × MTask)) (k : String) (v : MTask)
    (kv : String × MTask) (h : kv ∈ dictSet l k v) : kv = (k, v) ∨ kv ∈ l := by
  induction l with
  | nil => simpa [dictSet] using h
  | cons hd tl ih =>
    by_cases hk : hd.1 = k
    · simp only [dictSet, hk, ite_true] at h
      rcases List.mem_cons.mp h with h1 | h1
      · exact Or.inl h1
      · exact Or.inr (List.mem_cons_of_mem _ h1)
    · simp only [dictSet, hk, ite_false] at h
      rcases List.mem_cons.mp h with h1 | h1
      · exact Or.inr (h1 ▸ List.mem_cons_self _ _)
      · rcases ih h1 with h2 | h2
        · exact Or.inl h2
        · exact Or.inr (List.mem_cons_of_mem _ h2)

/-- C5: for the result text consisting of the marker line `### FILE: a/b.txt`
followed by a fenced code block tagged `txt` containing the line `hello`,
labeled-file extraction yields exactly one artifact, with path `a/b.txt` and
content `hello`, both trimmed. -/
theorem labeled_extraction_round_trip :
    extractLabeledFiles "### FILE: a/b.txt\n```txt\nhello\n```" =
      [("a/b.txt", "hello")] := by
  decide

/-- C10: `complete_task` on a present id sets the task COMPLETED with the
given result and returns `True`, whatever the prior status (BLOCKED, FAILED,
PENDING with unmet dependencies included); on an absent id it returns
`False` and leaves the manager, in particular every task, unchanged. -/
theorem complete_task_unconditional (m : AgentManagerState) (id res : String) :
    (∀ t : MTask, dictGet m.tasks id = some t →
      (completeTask m id res).1 = true ∧
      dictGet (completeTask m id res).2.tasks id =
        some ({ t with status := TaskStatus.completed, result := some res })) ∧
    (dictGet m.tasks id = none →
      (completeTask m id res).1 = false ∧ (completeTask m id res).2 = m) := by
  constructor
  · intro t ht
    cases ha : t.assigned_agent with
    | none => simp [completeTask, ht, ha, dictGet_dictSet_self]
    | some a => simp [completeTask, ht, ha, dictGet_dictSet_self]
  · intro hn
    simp [completeTask, hn]

/-- Witness for C10 at a concrete manager holding one FAILED and one BLOCKED
task: completing the FAILED task succeeds and flips it to COMPLETED;
completing an absent id fails and changes nothing. -/
theorem complete_task_unconditional_witness :
    (completeTask ⟨[("task_1", ⟨"task_1", "d1", TaskStatus.failed, none, none, []⟩),
                    ("task_2", ⟨"task_2", "d2", TaskStatus.blocked, none, none, ["task_1"]⟩)],
                   2, []⟩ "task_1" "r").1 = true ∧
    dictGet (completeTask ⟨[("task_1", ⟨"task_1", "d1", TaskStatus.failed, none, none, []⟩),
                    ("task_2", ⟨"task_2", "d2", TaskStatus.blocked, none, none, ["task_1"]⟩)],
                   2, []⟩ "task_1" "r").2.tasks "task_1" =
      some ⟨"task_1", "d1", TaskStatus.completed, none, some "r", []⟩ ∧
    (completeTask ⟨[("task_1", ⟨"task_1", "d1", TaskStatus.failed, none, none, []⟩)], 1, []⟩
        "task_9" "r").1 = false := by
  refine ⟨?_, ?_, ?_⟩
  · exact ((complete_task_unconditional
      ⟨[("task_1", ⟨"task_1", "d1", TaskStatus.failed, none, none, []⟩),
        ("task_2", ⟨"task_2", "d2", TaskStatus.blocked, none, none, ["task_1"]⟩)], 2, []⟩
      "task_1" "r").1 ⟨"task_1", "d1", TaskStatus.failed, none, none, []⟩ (by decide)).1
  · exact ((complete_task_unconditional
      ⟨[("task_1", ⟨"task_1", "d1", TaskStatus.failed, none, none, []⟩),
        ("task_2", ⟨"task_2", "d2", TaskStatus.blocked, none, none, ["task_1"]⟩)], 2, []⟩
      "task_1" "r").1 ⟨"task_1", "d1", TaskStatus.failed, none, none, []⟩ (by decide)).2
  · exact ((complete_task_unconditional
      ⟨[("task_1", ⟨"task_1", "d1", TaskStatus.failed, none, none, []⟩)], 1, []⟩
      "task_9" "r").2 (by decide)).1

/-- C3: if task B depends on task A and A is unsettled (neither COMPLETED nor
FAILED), then `assign_task` on B refuses the assignment, sets B BLOCKED, and
in particular never marks B IN_PROGRESS. -/
theorem assign_task_blocked_on_unsettled_dependency
    (m : AgentManagerState) (bId aId agent : String) (tB tA : MTask)
    (hB : dictGet m.tasks bId = some tB)
    (hdep : aId ∈ tB.dependencies)
    (hA : dictGet m.tasks aId = some tA)
    (hnc : tA.status ≠ TaskStatus.completed)
    (_hnf : tA.status ≠ TaskStatus.failed) :
    (assignTask m bId agent).1 = false ∧
    dictGet (assignTask m bId agent).2.tasks bId =
      some ({ tB with status := TaskStatus.blocked }) ∧
    ∀ t2 : MTask, dictGet (assignTask m bId agent).2.tasks bId = some t2 →
      t2.status ≠ TaskStatus.in_progress := by
  have hmet : dependenciesMet m tB = false := by
    unfold dependenciesMet
    rw [List.all_eq_false]
    refine ⟨aId, hdep, ?_⟩
    rw [hA]
    simpa using hnc
  refine ⟨?_, ?_, ?_⟩
  · simp [assignTask, hB, hmet]
  · simp [assignTask, hB, hmet, dictGet_dictSet_self]
  · intro t2 ht2
    simp only [assignTask, hB, hmet, Bool.false_eq_true, not_false_eq_true, if_true] at ht2
    rw [dictGet_dictSet_self] at ht2
    cases ht2
    simp

/-- Witness for C3: a manager with A PENDING and B depending on A; assigning
B is refused and B ends BLOCKED. -/
theorem assign_task_blocked_on_unsettled_dependency_witness :
    (assignTask ⟨[("a", ⟨"a", "da", TaskStatus.pending, none, none, []⟩),
                  ("b", ⟨"b", "db", TaskStatus.pending, none, none, ["a"]⟩)], 2, []⟩
        "b" "agent_1").1 = false ∧
    dictGet (assignTask ⟨[("a", ⟨"a", "da", TaskStatus.pending, none, none, []⟩),
                  ("b", ⟨"b", "db", TaskStatus.pending, none, none, ["a"]⟩)], 2, []⟩
        "b" "agent_1").2.tasks "b" =
      some ⟨"b", "db", TaskStatus.blocked, none, none, ["a"]⟩ := by
  have h := assign_task_blocked_on_unsettled_dependency
    ⟨[("a", ⟨"a", "da", TaskStatus.pending, none, none, []⟩),
      ("b", ⟨"b", "db", TaskStatus.pending, none, none, ["a"]⟩)], 2, []⟩
    "b" "a" "agent_1"
    ⟨"b", "db", TaskStatus.pending, none, none, ["a"]⟩
    ⟨"a", "da", TaskStatus.pending, none, none, []⟩
    (by decide) (by decide) (by decide) (by decide) (by decide)
  exact ⟨h.1, h.2.1⟩

/-- Shared helper: with at least one labeled file present, the per-result
step reduces to writing the labeled artifacts, and so does
`create_complete_implementation` on a single result. -/
theorem processContent_of_labeled (fm : FileManagerState) (id content : String)
    (h : extractLabeledFiles content ≠ []) :
    processContent fm content = writeMany fm (extractLabeledFiles content) ∧
    createCompleteImplementation fm [(id, content)] =
      writeMany fm (extractLabeledFiles content) := by
  have hne : (extractLabeledFiles content).isEmpty = false := by
    cases hx : extractLabeledFiles content with
    | nil => exact absurd hx h
    | cons a tl => rfl
  have h1 : processContent fm content = writeMany fm (extractLabeledFiles content) := by
    simp [processContent, hne]
  refine ⟨h1, ?_⟩
  unfold createCompleteImplementation
  simp [h1]

/-- C6: when a result text contains at least one labeled file, processing
that result writes exactly the labeled artifacts — neither the markup
decomposition nor the bare fenced-block fallback runs — both for the
per-result step and for `create_complete_implementation` on that result. -/
theorem labeled_files_authoritative (fm : FileManagerState) (id content : String)
    (h : extractLabeledFiles content ≠ []) :
    processContent fm content = writeMany fm (extractLabeledFiles content) ∧
    createCompleteImplementation fm [(id, content)] =
      writeMany fm (extractLabeledFiles content) :=
  processContent_of_labeled fm id content h

/-- Witness for C6: a result with one labeled python file produces exactly
that one write. -/
theorem labeled_files_authoritative_witness :
    extractLabeledFiles "### FILE: m.py\n```python\nx = 1\n```" ≠ [] ∧
    processContent ⟨["ws"], [], []⟩ "### FILE: m.py\n```python\nx = 1\n```" =
      writeMany ⟨["ws"], [], []⟩
        (extractLabeledFiles "### FILE: m.py\n```python\nx = 1\n```") := by
  refine ⟨by decide, ?_⟩
  exact (labeled_files_authoritative ⟨["ws"], [], []⟩ "s1"
    "### FILE: m.py\n```python\nx = 1\n```" (by decide)).1

/-- A decoded planner response whose two subtasks depend on each other: a
dependency 2-cycle. -/
def cycPlanData : PlanData :=
  { subtasks := [{ id := "a", description := "da", task_type := some "general",
                   dependencies := some ["b"] },
                 { id := "b", description := "db", task_type := some "general",
                   dependencies := some ["a"] }] }

/-- Counterexample to C1: the cyclic plan `a ↔ b` is not rejected by plan
construction — `_parse_plan_response` performs no cycle check and returns the
plan with both subtasks intact — and `_execute_plan` then executes both
subtasks (it walks the declaration order and never consults dependencies, so
no deadlock can occur either). -/
theorem cyclic_plan_accepted_and_executed :
    hasCycleBool (parsePlanResponse "plan_1" "t" (some cycPlanData)) = true ∧
    (parsePlanResponse "plan_1" "t" (some cycPlanData)).subtasks.length = 2 ∧
    engineExecutePlan (fun _ => (true, "Command validated"))
        (fun d => Except.ok ("R: " ++ d)) (fun d => d)
        (parsePlanResponse "plan_1" "t" (some cycPlanData)).subtasks =
      Except.ok [("a", "R: da"), ("b", "R: db")] := by
  refine ⟨by decide, by decide, ?_⟩
  rfl

/-- `engineStep` never raises when the backend never raises. -/
theorem engineStep_total (sec : String → Bool × String) (f scrape : String → String)
    (st : SubTask) :
    engineStep sec (fun s => Except.ok (f s)) scrape st =
      Except.ok (engineStepValue sec f scrape st) := by
  unfold engineStep engineStepValue
  by_cases h1 : st.task_type = "web_scrape"
  · simp [h1]
  · by_cases h2 : (sec st.description).1
    · simp [h1, h2]
    · simp [h1, h2]

/-- With a never-raising backend, `_execute_plan` produces one result per
subtask, in declaration order. -/
theorem engineExecutePlan_total (sec : String → Bool × String)
    (f scrape : String → String) :
    ∀ sts : List SubTask,
      engineExecutePlan sec (fun s => Except.ok (f s)) scrape sts =
        Except.ok (sts.map (fun st => (st.task_id, engineStepValue sec f scrape st)))
  | [] => rfl
  | st :: rest => by
    have ih := engineExecutePlan_total sec f scrape rest
    simp [engineExecutePlan, engineStep_total, ih]

/-- C1 amended: plan construction performs no cycle detection — a decoded
plan is accepted as-is, cyclic or not — and the execution loop visits every
subtask in declaration order without consulting dependencies, so (with a
responsive backend) every subtask of a cyclic plan is executed and no
deadlock arises. -/
theorem plan_construction_accepts_cycles
    (planId task : String) (pd : PlanData)
    (sec : String → Bool × String) (f scrape : String → String)
    (_hcyc : hasCycleBool (parsePlanResponse planId task (some pd)) = true) :
    (parsePlanResponse planId task (some pd)).subtasks = pd.subtasks.map subTaskOfData ∧
    engineExecutePlan sec (fun s => Except.ok (f s)) scrape
        (parsePlanResponse planId task (some pd)).subtasks =
      Except.ok ((parsePlanResponse planId task (some pd)).subtasks.map
        (fun st => (st.task_id, engineStepValue sec f scrape st))) := by
  exact ⟨rfl, engineExecutePlan_total sec f scrape _⟩

/-- Witness for the amended C1 at the concrete cyclic plan `a ↔ b`. -/
theorem plan_construction_accepts_cycles_witness :
    (parsePlanResponse "plan_1" "t" (some cycPlanData)).subtasks =
      cycPlanData.subtasks.map subTaskOfData ∧
    engineExecutePlan (fun _ => (true, "Command validated"))
        (fun s => Except.ok ("R: " ++ s)) (fun d => d)
        (parsePlanResponse "plan_1" "t" (some cycPlanData)).subtasks =
      Except.ok ((parsePlanResponse "plan_1" "t" (some cycPlanData)).subtasks.map
        (fun st => (st.task_id,
          engineStepValue (fun _ => (true, "Command validated")) (fun s => "R: " ++ s)
            (fun d => d) st))) :=
  plan_construction_accepts_cycles "plan_1" "t" cycPlanData
    (fun _ => (true, "Command validated")) (fun s => "R: " ++ s) (fun d => d)
    (by decide)

/-- Counterexample to C2: the artifact path `a/../b.txt` contains a
parent-directory traversal segment, yet extraction-and-write accepts it — the
resolved path `ws/b.txt` lies inside the sandbox root, so the file is
written, the write succeeds and the history records a success, not a
rejection.  The code rejects by resolved location, not by the presence of a
`..` segment. -/
theorem traversal_segment_still_written :
    (splitSlash "a/../b.txt").contains ".." = true ∧
    (createCompleteImplementation ⟨["ws"], [], []⟩
        [("s1", "### FILE: a/../b.txt\n```txt\nx\n```")]).1 =
      [⟨true, "ws/b.txt", some 1, none⟩] ∧
    (createCompleteImplementation ⟨["ws"], [], []⟩
        [("s1", "### FILE: a/../b.txt\n```txt\nx\n```")]).2.files =
      [(["ws", "b.txt"], "x")] ∧
    (createCompleteImplementation ⟨["ws"], [], []⟩
        [("s1", "### FILE: a/../b.txt\n```txt\nx\n```")]).2.history =
      [⟨"write", "a/../b.txt", true⟩] := by
  decide

/-- C2 amended: every artifact path whose resolution against the sandbox
root escapes the root (the `../../etc/passwd` marker among them) is rejected:
the write returns a failure result carrying the ValueError text, no file is
created, and exactly one rejection is recorded; and running the labeled-file
extraction pipeline on a result whose single labeled artifact escapes
produces zero files and exactly one recorded rejection. -/
theorem escaping_path_write_rejected (fm : FileManagerState) :
    (∀ filepath content : String,
      fm.base.isPrefixOf (resolvePath fm.base filepath) = false →
      (writeFile fm filepath content).1.success = false ∧
      (writeFile fm filepath content).1.error =
        some ("Path " ++ filepath ++ " is outside base directory") ∧
      (writeFile fm filepath content).2.files = fm.files ∧
      (writeFile fm filepath content).2.history =
        fm.history ++ [⟨"write", filepath, false⟩]) ∧
    (∀ id content p c : String,
      extractLabeledFiles content = [(p, c)] →
      fm.base.isPrefixOf (resolvePath fm.base p) = false →
      (createCompleteImplementation fm [(id, content)]).1 =
        [⟨false, p, none, some ("Path " ++ p ++ " is outside base directory")⟩] ∧
      (createCompleteImplementation fm [(id, content)]).2.files = fm.files ∧
      (createCompleteImplementation fm [(id, content)]).2.history =
        fm.history ++ [⟨"write", p, false⟩]) := by
  have hw : ∀ filepath content : String,
      fm.base.isPrefixOf (resolvePath fm.base filepath) = false →
      writeFile fm filepath content =
        (⟨false, filepath, none,
          some ("Path " ++ filepath ++ " is outside base directory")⟩,
         { fm with history := fm.history ++ [⟨"write", filepath, false⟩] }) := by
    intro filepath content h
    simp [writeFile, getSafePath, h]
  constructor
  · intro filepath content h
    rw [hw filepath content h]
    exact ⟨rfl, rfl, rfl, rfl⟩
  · intro id content p c hx h
    have hcc : createCompleteImplementation fm [(id, content)] =
        writeMany fm (extractLabeledFiles content) :=
      (processContent_of_labeled fm id content (by simp [hx])).2
    rw [hcc, hx]
    simp [writeMany, hw p c h]

/-- Witness for the amended C2: the spec marker naming `../../etc/passwd`
resolves outside the root `ws`, the write fails with the ValueError text, no
file appears and one rejection is logged. -/
theorem escaping_path_write_rejected_witness :
    (writeFile ⟨["ws"], [], []⟩ "../../etc/passwd" "x").1.success = false ∧
    (writeFile ⟨["ws"], [], []⟩ "../../etc/passwd" "x").2.files = [] ∧
    (createCompleteImplementation ⟨["ws"], [], []⟩
        [("s1", "### FILE: ../../etc/passwd\n```txt\nx\n```")]).1 =
      [⟨false, "../../etc/passwd", none,
        some ("Path " ++ "../../etc/passwd" ++ " is outside base directory")⟩] ∧
    (createCompleteImplementation ⟨["ws"], [], []⟩
        [("s1", "### FILE: ../../etc/passwd\n```txt\nx\n```")]).2.files = [] ∧
    (createCompleteImplementation ⟨["ws"], [], []⟩
        [("s1", "### FILE: ../../etc/passwd\n```txt\nx\n```")]).2.history =
      [] ++ [⟨"write", "../../etc/passwd", false⟩] := by
  have h := escaping_path_write_rejected ⟨["ws"], [], []⟩
  have h1 := h.1 "../../etc/passwd" "x" (by decide)
  have h2 := h.2 "s1" "### FILE: ../../etc/passwd\n```txt\nx\n```"
    "../../etc/passwd" "x" (by decide) (by decide)
  exact ⟨h1.1, h1.2.2.1, h2.1, h2.2.1, h2.2.2⟩

theorem dictSet_dictSet (l : List (String × MTask)) (k : String) (v w : MTask) :
    dictSet (dictSet l k v) k w = dictSet l k w := by
  induction l with
  | nil => simp [dictSet]
  | cons hd tl ih =>
    by_cases hk : hd.1 = k
    · simp [dictSet, hk]
    · simp [dictSet, hk, ih]

/-- `complete_task` on a present id only overwrites that task entry. -/
theorem completeTask_tasksEq (m : AgentManagerState) (id res : String) (t : MTask)
    (h : dictGet m.tasks id = some t) :
    (completeTask m id res).2.tasks =
      dictSet m.tasks id ({ t with status := TaskStatus.completed, result := some res }) := by
  cases ha : t.assigned_agent with
  | none => simp [completeTask, h, ha]
  | some a => simp [completeTask, h, ha]

/-- `assign_task` on a present id only overwrites that task entry. -/
theorem assignTask_tasksEq (m : AgentManagerState) (id agent : String) (t : MTask)
    (h : dictGet m.tasks id = some t) :
    ∃ t2 : MTask, (assignTask m id agent).2.tasks = dictSet m.tasks id t2 := by
  by_cases hd : dependenciesMet m t
  · exact ⟨{ t with assigned_agent := some agent, status := TaskStatus.in_progress },
      by simp [assignTask, h, hd]⟩
  · exact ⟨{ t with status := TaskStatus.blocked }, by simp [assignTask, h, hd]⟩

/-- One iteration of the `_execute_plan` loop of `MultiAgentOrchestrator`
replaces the freshly created task entry by a COMPLETED one and leaves every
other entry alone. -/
theorem orchLoopBody_tasks (m : AgentManagerState) (desc : String)
    (deps : List String) (agent res : String) :
    ∃ t3 : MTask, t3.status = TaskStatus.completed ∧
      (completeTask
        (assignTask (createTask m desc deps).2 (createTask m desc deps).1.task_id agent).2
        (createTask m desc deps).1.task_id res).2.tasks =
      dictSet m.tasks (createTask m desc deps).1.task_id t3 := by
  set id := (createTask m desc deps).1.task_id with hid
  have h1 : (createTask m desc deps).2.tasks =
      dictSet m.tasks id (createTask m desc deps).1 := by
    simp [createTask, hid]
  have hg1 : dictGet (createTask m desc deps).2.tasks id = some (createTask m desc deps).1 := by
    rw [h1]; exact dictGet_dictSet_self _ _ _
  obtain ⟨t2, h2⟩ := assignTask_tasksEq (createTask m desc deps).2 id agent _ hg1
  have hg2 : dictGet (assignTask (createTask m desc deps).2 id agent).2.tasks id = some t2 := by
    rw [h2]; exact dictGet_dictSet_self _ _ _
  refine ⟨{ t2 with status := TaskStatus.completed, result := some res }, rfl, ?_⟩
  rw [completeTask_tasksEq _ _ _ _ hg2, h2, h1, dictSet_dictSet, dictSet_dictSet]

/-- Every manager task is COMPLETED after the `_execute_plan` loop of
`MultiAgentOrchestrator`, provided every initially present task was. -/
theorem executePlanOrch_statuses (sec : String → Bool × String)
    (backend : String → Except String String) (agentOf : String → String) :
    ∀ (sts : List SubTask) (start : List (String × String) × AgentManagerState),
      (∀ kv ∈ start.2.tasks, kv.2.status = TaskStatus.completed) →
      ∀ kv ∈ (executePlanOrch sec backend agentOf start sts).2.tasks,
        kv.2.status = TaskStatus.completed
  | [], start => by
    intro h kv hkv
    exact h kv hkv
  | st :: rest, start => by
    intro h kv hkv
    obtain ⟨t3, ht3, heq⟩ := orchLoopBody_tasks start.2 st.description st.dependencies
      (agentOf st.description) (executeSubtask sec backend st)
    refine executePlanOrch_statuses sec backend agentOf rest _ ?_ kv hkv
    intro kv2 hkv2
    simp only [executePlanOrch] at hkv2 ⊢
    rw [heq] at hkv2
    rcases dictSet_mem _ _ _ _ hkv2 with h1 | h1
    · rw [h1]; exact ht3
    · exact h kv2 h1

/-- The results of the `_execute_plan` loop of `MultiAgentOrchestrator`: one
entry per subtask, in declaration order, each the `executeSubtask` string. -/
theorem executePlanOrch_results (sec : String → Bool × String)
    (backend : String → Except String String) (agentOf : String → String) :
    ∀ (sts : List SubTask) (start : List (String × String) × AgentManagerState),
      (executePlanOrch sec backend agentOf start sts).1 =
        start.1 ++ sts.map (fun st => (st.task_id, executeSubtask sec backend st))
  | [], start => by simp [executePlanOrch]
  | st :: rest, start => by
    have ih := executePlanOrch_results sec backend agentOf rest
    simp [executePlanOrch, ih]

set_option maxRecDepth 100000 in
/-- Counterexample to C4, at a two-subtask plan whose first backend call
raises `boom`: the failing subtask is marked COMPLETED, not FAILED — the
`try` block of `_execute_subtask` converts the exception into the string
`Error executing subtask: boom`, which `complete_task` then stores as an
ordinary result — and the error text is stored with that prefix, not
verbatim.  (The sibling does still run.) -/
theorem transport_failure_marks_completed :
    (executePlanOrch (fun _ => (true, "Command validated"))
        (fun p => if p = buildEnhancedPrompt ⟨"a", "da", "general", [], "medium", "out"⟩
                  then Except.error "boom" else Except.ok "ok")
        (fun _ => "agent_1") ([], ⟨[], 0, []⟩)
        [⟨"a", "da", "general", [], "medium", "out"⟩,
         ⟨"b", "db", "general", [], "medium", "out"⟩]).1 =
      [("a", "Error executing subtask: boom"), ("b", "ok")] ∧
    (dictGet (executePlanOrch (fun _ => (true, "Command validated"))
        (fun p => if p = buildEnhancedPrompt ⟨"a", "da", "general", [], "medium", "out"⟩
                  then Except.error "boom" else Except.ok "ok")
        (fun _ => "agent_1") ([], ⟨[], 0, []⟩)
        [⟨"a", "da", "general", [], "medium", "out"⟩,
         ⟨"b", "db", "general", [], "medium", "out"⟩]).2.tasks "task_1").map
      (fun t => (t.status, t.result)) =
      some (TaskStatus.completed, some "Error executing subtask: boom") ∧
    (executePlanOrch (fun _ => (true, "Command validated"))
        (fun p => if p = buildEnhancedPrompt ⟨"a", "da", "general", [], "medium", "out"⟩
                  then Except.error "boom" else Except.ok "ok")
        (fun _ => "agent_1") ([], ⟨[], 0, []⟩)
        [⟨"a", "da", "general", [], "medium", "out"⟩,
         ⟨"b", "db", "general", [], "medium", "out"⟩]).2.tasks.map
      (fun kv => kv.2.status) = [TaskStatus.completed, TaskStatus.completed] := by
  decide

/-- C4 amended: a transport-level failure of the backend is caught inside
`_execute_subtask` and captured as the subtask's result string, prefixed with
`Error executing subtask: ` (so as data, not as an aborting error, and
sibling subtasks still run — every subtask of the plan yields a result);
the subtask, however, is then handed to `complete_task` and ends COMPLETED,
never FAILED. -/
theorem transport_failure_captured_as_data
    (sec : String → Bool × String) (backend : String → Except String String)
    (agentOf : String → String) (m0 : AgentManagerState) (sts : List SubTask)
    (st : SubTask) (e : String)
    (hsec : (sec st.description).1 = true)
    (hb : backend (buildEnhancedPrompt st) = Except.error e)
    (hm0 : ∀ kv ∈ m0.tasks, kv.2.status = TaskStatus.completed) :
    executeSubtask sec backend st = "Error executing subtask: " ++ e ∧
    (executePlanOrch sec backend agentOf ([], m0) sts).1 =
      sts.map (fun s => (s.task_id, executeSubtask sec backend s)) ∧
    (∀ kv ∈ (executePlanOrch sec backend agentOf ([], m0) sts).2.tasks,
      kv.2.status = TaskStatus.completed) := by
  refine ⟨?_, ?_, ?_⟩
  · simp [executeSubtask, hsec, hb]
  · simpa using executePlanOrch_results sec backend agentOf sts ([], m0)
  · exact executePlanOrch_statuses sec backend agentOf sts ([], m0) hm0

/-- Witness for the amended C4, at the concrete two-subtask plan of the
counterexample. -/
theorem transport_failure_captured_as_data_witness :
    executeSubtask (fun _ => (true, "Command validated"))
        (fun p => if p = buildEnhancedPrompt ⟨"a", "da", "general", [], "medium", "out"⟩
                  then Except.error "boom" else Except.ok "ok")
        ⟨"a", "da", "general", [], "medium", "out"⟩ =
      "Error executing subtask: " ++ "boom" ∧
    (executePlanOrch (fun _ => (true, "Command validated"))
        (fun p => if p = buildEnhancedPrompt ⟨"a", "da", "general", [], "medium", "out"⟩
                  then Except.error "boom" else Except.ok "ok")
        (fun _ => "agent_1") ([], ⟨[], 0, []⟩)
        [⟨"a", "da", "general", [], "medium", "out"⟩,
         ⟨"b", "db", "general", [], "medium", "out"⟩]).1 =
      [⟨"a", "da", "general", [], "medium", "out"⟩,
       ⟨"b", "db", "general", [], "medium", "out"⟩].map
        (fun s => (s.task_id, executeSubtask (fun _ => (true, "Command validated"))
          (fun p => if p = buildEnhancedPrompt ⟨"a", "da", "general", [], "medium", "out"⟩
                    then Except.error "boom" else Except.ok "ok") s)) ∧
    (∀ kv ∈ (executePlanOrch (fun _ => (true, "Command validated"))
        (fun p => if p = buildEnhancedPrompt ⟨"a", "da", "general", [], "medium", "out"⟩
                  then Except.error "boom" else Except.ok "ok")
        (fun _ => "agent_1") ([], ⟨[], 0, []⟩)
        [⟨"a", "da", "general", [], "medium", "out"⟩,
         ⟨"b", "db", "general", [], "medium", "out"⟩]).2.tasks,
      kv.2.status = TaskStatus.completed) :=
  transport_failure_captured_as_data
    (fun _ => (true, "Command validated"))
    (fun p => if p = buildEnhancedPrompt ⟨"a", "da", "general", [], "medium", "out"⟩
              then Except.error "boom" else Except.ok "ok")
    (fun _ => "agent_1") ⟨[], 0, []⟩
    [⟨"a", "da", "general", [], "medium", "out"⟩,
     ⟨"b", "db", "general", [], "medium", "out"⟩]
    ⟨"a", "da", "general", [], "medium", "out"⟩ "boom"
    rfl (by simp) (by simp)

/-- Supporting fact for the healing loop as written (lines 91-129, i.e. with
the `file_manager.base` slip repaired): a probe round with no failures — in
particular a tree with no recognised manifests — terminates the loop at the
first iteration with the single history entry `Attempt 1: Success`, for any
positive budget; a zero budget skips the loop and returns the empty
history. -/
theorem heal_loop_success_when_no_failures {S : Type}
    (install : S → List EnvFailure) (patchAll : S → List EnvFailure → S)
    (s : S) (n : Nat) (hinst : install s = []) (hn : 1 ≤ n) :
    verifyAndHealLoop install patchAll n 0 s = ["Attempt 1: Success"] := by
  cases n with
  | zero => exact absurd hn (by simp)
  | succ k =>
    simp only [verifyAndHealLoop, hinst, List.isEmpty_nil, if_true]
    decide

/-- A file tree with no recognised manifest names yields no probe failures. -/
theorem installDependencies_no_manifests (tree : List (String × String))
    (runNpm runPip : String → String → Bool × String)
    (h : ∀ f ∈ tree, lastSegment f.1 ≠ "package.json" ∧
      lastSegment f.1 ≠ "requirements.txt") :
    installDependencies tree runNpm runPip = [] := by
  unfold installDependencies
  have h1 : tree.filter
      (fun f => lastSegment f.1 = "package.json" && ¬ containsSub f.1 "node_modules") = [] := by
    rw [List.filter_eq_nil_iff]
    intro f hf
    simp [(h f hf).1]
  have h2 : tree.filter
      (fun f => lastSegment f.1 = "requirements.txt" && ¬ containsSub f.1 "venv" &&
        ¬ containsSub f.1 ".env") = [] := by
    rw [List.filter_eq_nil_iff]
    intro f hf
    simp [(h f hf).2]
  rw [h1, h2]
  rfl

/-- C7 (code bug): as invoked, `_verify_and_heal` raises `AttributeError`
at its first statement — `EnvironmentManager(file_manager.base)` accesses an
attribute `FileManager` does not define — for every file tree and every
`max_retries` budget, so no healing history (in particular not the
one-success-entry history the claim describes) is ever returned.  The loop
as written (slip repaired) does return the one-attempt, zero-failure history
`["Attempt 1: Success"]` on a manifest-free tree for every positive budget —
but the empty history when the budget is 0. -/
theorem verify_and_heal_no_manifest_behavior
    (fm : FileManagerState) (n : Nat) (tree : List (String × String))
    (runNpm runPip : String → String → Bool × String)
    (patchAll : List (String × String) → List EnvFailure → List (String × String))
    (hman : ∀ f ∈ tree, lastSegment f.1 ≠ "package.json" ∧
      lastSegment f.1 ≠ "requirements.txt")
    (hn : 1 ≤ n) :
    verifyAndHealEngine fm n =
      Except.error "AttributeError: FileManager object has no attribute base" ∧
    verifyAndHealLoop (fun t => installDependencies t runNpm runPip) patchAll n 0 tree =
      ["Attempt 1: Success"] ∧
    verifyAndHealLoop (fun t => installDependencies t runNpm runPip) patchAll 0 0 tree =
      [] := by
  refine ⟨rfl, ?_, rfl⟩
  exact heal_loop_success_when_no_failures _ patchAll tree n
    (installDependencies_no_manifests tree runNpm runPip hman) hn

/-- Witness for C7 at a concrete manifest-free tree and budget 3. -/
theorem verify_and_heal_no_manifest_behavior_witness :
    verifyAndHealEngine ⟨["ws"], [], []⟩ 3 =
      Except.error "AttributeError: FileManager object has no attribute base" ∧
    verifyAndHealLoop
        (fun t => installDependencies t (fun _ _ => (false, "e")) (fun _ _ => (false, "e")))
        (fun t _ => t) 3 0 [("ws/readme.md", "hi")] =
      ["Attempt 1: Success"] ∧
    verifyAndHealLoop
        (fun t => installDependencies t (fun _ _ => (false, "e")) (fun _ _ => (false, "e")))
        (fun t _ => t) 0 0 [("ws/readme.md", "hi")] =
      [] :=
  verify_and_heal_no_manifest_behavior ⟨["ws"], [], []⟩ 3 [("ws/readme.md", "hi")]
    (fun _ _ => (false, "e")) (fun _ _ => (false, "e")) (fun t _ => t)
    (by decide) (by decide)

/-- C8 (code bug): at the claim's scenario — one failing manifest whose
patch takes effect on attempt 2 of a 3-attempt budget — the invoked
`_verify_and_heal` raises `AttributeError` instead of returning a history;
and even the loop as written (slip repaired) would return a 2-entry history
of plain strings, the second being exactly `Attempt 2: Success`, with no
`patched` marking anywhere. -/
theorem verify_and_heal_crash_at_patch_scenario :
    verifyAndHealEngine ⟨["ws"], [(["ws", "requirements.txt"], "bad")], []⟩ 3 =
      Except.error "AttributeError: FileManager object has no attribute base" ∧
    verifyAndHealLoop
        (fun t => installDependencies t (fun _ _ => (true, ""))
          (fun _ c => (c = "good", "err")))
        (fun t _ => t.map (fun f => (f.1, "good")))
        3 0 [("requirements.txt", "bad")] =
      ["Attempt 1: Failed with 1 errors. Retrying...", "Attempt 2: Success"] ∧
    containsSub "Attempt 2: Success" "patched" = false := by
  exact ⟨rfl, by decide, by decide⟩

set_option maxRecDepth 100000 in
/-- Counterexample to C9: a markup result with no labeled files containing an
inline style block (empty) and an inline script block yields only TWO
artifacts — `index.html` and `script.js` — because `_process_html` writes
`style.css` only when the concatenated style content is non-empty. -/
theorem empty_style_block_yields_two_artifacts :
    extractLabeledFiles "```html\n<style></style><script>x</script>\n```" = [] ∧
    findStyleBlocks "<style></style><script>x</script>\n" = [""] ∧
    findScriptBlocks "<style></style><script>x</script>\n" = ["x"] ∧
    (createCompleteImplementation ⟨["ws"], [], []⟩
        [("s1", "```html\n<style></style><script>x</script>\n```")]).1.map
      (fun r => r.filepath) = ["ws/index.html", "ws/script.js"] ∧
    (createCompleteImplementation ⟨["ws"], [], []⟩
        [("s1", "```html\n<style></style><script>x</script>\n```")]).1.length = 2 := by
  decide

/-- C9 amended: for a subtask result with no labeled files whose single
fenced block is tagged `html`, when the concatenated (stripped) inline style
content and the concatenated (stripped) inline script content are both
non-empty, extraction yields exactly three artifacts in order: `index.html`
holding the markup with both kinds of block removed and the stylesheet link
and script reference injected (before `</head>` and `</body>` when those
tags exist), `style.css` holding the concatenated style content, and
`script.js` holding the concatenated script content; an empty concatenation
omits the corresponding artifact. -/
theorem markup_decomposition_artifacts
    (fm : FileManagerState) (id content body css js : String)
    (hlab : extractLabeledFiles content = [])
    (hblocks : findCodeBlocks content = [("html", body)])
    (hcss : String.intercalate "\n\n" ((findStyleBlocks body).map pyStrip) = css)
    (hjs : String.intercalate "\n\n" ((findScriptBlocks body).map pyStrip) = js)
    (hcssne : css ≠ "") (hjsne : js ≠ "") :
    createCompleteImplementation fm [(id, content)] =
      (let w1 := writeFile fm "index.html"
          (pyStrip (injectLinks (removeScriptBlocks (removeStyleBlocks body))));
       let w2 := writeFile w1.2 "style.css" css;
       let w3 := writeFile w2.2 "script.js" js;
       ([w1.1, w2.1, w3.1], w3.2)) := by
  simp only [createCompleteImplementation, List.foldl_cons, List.foldl_nil, List.nil_append]
  simp only [processContent, hlab, List.isEmpty_nil, not_true, if_false, hblocks,
    List.foldl_cons, List.foldl_nil]
  have hl : pyLower "html" = "html" := by decide
  simp only [hl, if_true, processHtml, hcss, hjs, List.nil_append, reduceIte]
  simp [hcssne, hjsne]

/-- Witness for the amended C9 at the spec scenario: a head/body document
with one inline style and one inline script block splits into the three
artifacts. -/
theorem markup_decomposition_artifacts_witness :
    createCompleteImplementation ⟨["ws"], [], []⟩
      [("s1", "```html\n<html><head><style>s1</style></head><body><p>hi</p><script>j1</script></body></html>\n```")] =
      (let w1 := writeFile ⟨["ws"], [], []⟩ "index.html"
          (pyStrip (injectLinks (removeScriptBlocks (removeStyleBlocks
            "<html><head><style>s1</style></head><body><p>hi</p><script>j1</script></body></html>\n"))));
       let w2 := writeFile w1.2 "style.css" "s1";
       let w3 := writeFile w2.2 "script.js" "j1";
       ([w1.1, w2.1, w3.1], w3.2)) :=
  markup_decomposition_artifacts ⟨["ws"], [], []⟩ "s1"
    "```html\n<html><head><style>s1</style></head><body><p>hi</p><script>j1</script></body></html>\n```"
    "<html><head><style>s1</style></head><body><p>hi</p><script>j1</script></body></html>\n"
    "s1" "j1" (by decide) (by decide) (by decide) (by decide)
    (by decide) (by decide)
